import Mathlib

/-!
Verification of the query/search/parse pipeline of the AI-Agent-Dashboard
repository (src/api_call.py and src/app.py), as a shallow embedding.

Embedding conventions:
* HTTP attempts are an oracle `Nat → Attempt`: attempt `i` either yields a
  parsed HTML page (a list of `.g` result blocks) or raises a
  `requests.exceptions.RequestException` of some kind.
* `time.sleep` is modelled by accumulating the slept duration.
* `logging.warning` / `logging.error` calls inside the retry loop are
  modelled by an accumulated list of `LogEvent`s.
* The Hugging Face QA model is an oracle `String → String → GenResult`
  (question, context ↦ answer or raised exception).
* Python's substring test `a in b` is `pyIn a b`; `str.lower` is
  `pyLower`; `re.findall` for the fixed email pattern
  `[a-zA-Z0-9._%+-]+@[a-zA-Z0-9.-]+\.[a-zA-Z]\x7b2,\x7d` is `findEmails`,
  a direct left-to-right scanner with the pattern's greedy/backtracking
  semantics specialised to this one pattern.
-/

/-- Python's `needle in hay` on lists: `needle` occurs contiguously in `hay`. -/
def listInfixOf (n : List Char) : List Char → Bool
  | [] => n.isEmpty
  | c :: t => n.isPrefixOf (c :: t) || listInfixOf n t

/-- Python's substring test `needle in hay` on strings. -/
def pyIn (needle hay : String) : Bool :=
  listInfixOf needle.toList hay.toList

/-- Python's `str.lower` (ASCII lowering, as the snippets are ASCII). -/
def pyLower (s : String) : String :=
  (s.toList.map Char.toLower).asString

/-- Left-to-right non-overlapping replacement scan for `str.replace`:
if the pattern starts here, emit the replacement and skip the pattern, else
copy one character.  `fuel = cs.length` suffices (the pattern is non-empty
whenever this is reached). -/
def pyReplaceAux (pat rep : List Char) : Nat -> List Char -> List Char
  | _, [] => []
  | 0, cs => cs
  | Nat.succ fuel, c :: cs =>
    if pat.isPrefixOf (c :: cs) then
      rep ++ pyReplaceAux pat rep fuel ((c :: cs).drop pat.length)
    else c :: pyReplaceAux pat rep fuel cs

/-- Python's `s.replace(pattern, replacement)` (all occurrences, left to
right, non-overlapping; for the empty pattern it leaves `s` unchanged - the
orchestrator only ever replaces the non-empty placeholder). -/
def pyReplace (s pattern replacement : String) : String :=
  if pattern.isEmpty then s
  else (pyReplaceAux pattern.toList replacement.toList s.toList.length s.toList).asString

/-- Character class `[a-zA-Z0-9._%+-]` (local part of the email pattern). -/
def isLocalChar (c : Char) : Bool :=
  c.isAlpha || c.isDigit || c == '.' || c == '_' || c == '%' || c == '+' || c == '-'

/-- Character class `[a-zA-Z0-9.-]` (domain run of the email pattern). -/
def isDomainChar (c : Char) : Bool :=
  c.isAlpha || c.isDigit || c == '.' || c == '-'

/--
Backtracking over the greedy domain run: given the maximal run of
`[a-zA-Z0-9.-]` characters after the `@`, find the largest `k ≥ 1` such that
the run has a literal `.` at index `k` followed by at least two letters
(`[a-zA-Z]\x7b2,\x7d`, taken greedily).  Returns the domain part before the
dot, the matched letters, and the unconsumed remainder of the run.
-/
def tryDomainAux (run : List Char) : Nat → Option (List Char × List Char × List Char)
  | 0 => none
  | Nat.succ k =>
    let kk := Nat.succ k
    if run.getD kk ' ' == '.' then
      let letters := (run.drop (kk + 1)).takeWhile Char.isAlpha
      if 2 ≤ letters.length then
        some (run.take kk, letters, run.drop (kk + 1 + letters.length))
      else tryDomainAux run k
    else tryDomainAux run k

def tryDomain (run : List Char) : Option (List Char × List Char × List Char) :=
  tryDomainAux run (run.length - 1)

/--
Attempt to match the email pattern at the head of `cs`.  On success returns
the matched characters and the rest of the input after the match.
-/
def matchEmail (cs : List Char) : Option (List Char × List Char) :=
  let lp := cs.takeWhile isLocalChar
  if lp.isEmpty then none
  else
    match cs.dropWhile isLocalChar with
    | '@' :: rest =>
      let run := rest.takeWhile isDomainChar
      let afterRun := rest.dropWhile isDomainChar
      match tryDomain run with
      | none => none
      | some (dom, letters, leftover) =>
        some (lp ++ '@' :: (dom ++ '.' :: letters), leftover ++ afterRun)
    | _ => none

/--
Left-to-right non-overlapping scan, as `re.findall` performs: try a match at
each position, emit it and continue after its end, otherwise advance one
character.  `fuel` bounds the recursion; `fuel = cs.length` always suffices
because every step strictly consumes input.
-/
def findEmailsAux : Nat → List Char → List String
  | 0, _ => []
  | _, [] => []
  | Nat.succ fuel, c :: rest =>
    match matchEmail (c :: rest) with
    | some (m, after) => m.asString :: findEmailsAux fuel after
    | none => findEmailsAux fuel rest

/-- `re.findall(r'[a-zA-Z0-9._%+-]+@[a-zA-Z0-9.-]+\.[a-zA-Z]\x7b2,\x7d', s)`. -/
def findEmails (s : String) : List String :=
  findEmailsAux s.toList.length s.toList

/-- The canonical search-result record (src/api_call.py lines 71-76). -/
structure SearchResult where
  entity : String
  title : String
  link : String
  snippet : String
deriving Repr, DecidableEq, Inhabited

/--
One `.g` result block of the parsed HTML page.  `title`/`snippet` are the
optional `h3` / `.VwiC3b` texts (`select_one` returning `None` is `none`).
`anchor` models `select_one("a")`: `none` when no anchor exists,
`some href?` when an anchor exists with an optional `href` attribute —
`result.select_one("a")["href"]` raises `KeyError` when the attribute is
absent.
-/
structure Block where
  title : Option String
  anchor : Option (Option String)
  snippet : Option String
deriving Repr, DecidableEq

/--
Field extraction for one block (src/api_call.py lines 67-69): missing `h3`,
anchor or snippet fall back to sentinel strings; an anchor present without
an `href` attribute raises (`.error`).
-/
def parseBlock (entity : String) (b : Block) : Except Unit SearchResult :=
  match b.anchor with
  | some none => .error ()
  | _ =>
    .ok { entity := entity,
          title := b.title.getD "No title available",
          link := match b.anchor with
                  | some (some h) => h
                  | _ => "No link available",
          snippet := b.snippet.getD "No snippet available" }

/--
The `for i, result in enumerate(soup.select(".g"))` loop
(src/api_call.py lines 63-77): stop before index 5, extract fields (which
may raise), retain a result only when `"email" in snippet.lower()`.
-/
def collectResults (entity : String) : List Block → Nat → Except Unit (List SearchResult)
  | [], _ => .ok []
  | b :: bs, i =>
    if 5 ≤ i then .ok []
    else
      match parseBlock entity b with
      | .error e => .error e
      | .ok r =>
        match collectResults entity bs (i + 1) with
        | .error e => .error e
        | .ok rest => .ok (if pyIn "email" (pyLower r.snippet) then r :: rest else rest)

/-- The possible causes of a `requests.exceptions.RequestException`. -/
inductive ReqErrKind
  | rateLimited
  | connectionError
  | httpStatusError
deriving Repr, DecidableEq

/-- Outcome of one HTTP attempt of the retry loop. -/
inductive Attempt
  | response (blocks : List Block)
  | requestError (kind : ReqErrKind)
deriving Repr, DecidableEq

/-- Log events emitted by `search_query`. -/
inductive LogEvent
  | retryWarning
  | exhaustedError
deriving Repr, DecidableEq

/-- What `search_query` does from the caller's point of view. -/
inductive SearchOutcome
  | returned (rs : List SearchResult)
  | raised
deriving Repr, DecidableEq

/-- A complete run of `search_query`: outcome, HTTP requests made, total
seconds slept in backoff, and log events emitted. -/
structure SearchRun where
  outcome : SearchOutcome
  requests : Nat
  slept : Nat
  logs : List LogEvent
deriving Repr, DecidableEq

/--
The `while retries < max_retries` loop of src/api_call.py lines 55-88.
`remaining = max_retries - retries`; `idx` is the index of the next attempt
in the oracle.  A `RequestException` logs a warning, sleeps `backoff`,
and doubles the backoff; a successful response is parsed, and a parse
exception propagates (`.raised`) — it is not caught by the
`except requests.exceptions.RequestException` handler.  Exhausting the loop
logs an error and returns `[]`.
-/
def searchLoop (entity : String) (o : Nat → Attempt) :
    Nat → Nat → Nat → Nat → Nat → List LogEvent → SearchRun
  | 0, _, _, requests, slept, logs =>
    ⟨.returned [], requests, slept, logs ++ [.exhaustedError]⟩
  | Nat.succ remaining, idx, backoff, requests, slept, logs =>
    match o idx with
    | .requestError _ =>
      searchLoop entity o remaining (idx + 1) (backoff * 2) (requests + 1)
        (slept + backoff) (logs ++ [.retryWarning])
    | .response blocks =>
      match collectResults entity blocks 0 with
      | .ok rs => ⟨.returned rs, requests + 1, slept, logs⟩
      | .error _ => ⟨.raised, requests + 1, slept, logs⟩

/-- Default `max_retries` of `search_query` (src/api_call.py line 37). -/
def defaultMaxRetries : Nat := 5

/-- `search_query(entity, custom_prompt, max_retries)`: `retries = 0`,
`backoff_time = 1`, then the retry loop. -/
def search_query (entity : String) (o : Nat → Attempt) (max_retries : Nat) : SearchRun :=
  searchLoop entity o max_retries 0 1 0 0 []

/-- Result of one invocation of the Hugging Face QA `generator`. -/
inductive GenResult
  | answers (a : String)
  | raises
deriving Repr, DecidableEq

def hfFailureMsg : String := "Failed to get a response from the Hugging Face model."

def noResultsMsg : String := "No results to parse."

def parseErrorMsg : String := "Error during parsing of results."

def caveatMsg : String :=
  "(Exact email not found because LLM may not have found relevant data to extract email.)"

def basePrompt : String :=
  "Extract the email address for the given Entity from the following search results if email not found then return the snippet:"

/--
`call_llm_with_huggingface` (src/api_call.py lines 93-116): any exception
from the model invocation is caught and converted to the fixed failure
string.
-/
def call_llm_with_huggingface (gen : String → String → GenResult)
    (prompt context : String) : String :=
  match gen prompt context with
  | .answers a => a
  | .raises => hfFailureMsg

/-- The context aggregation loop of src/api_call.py lines 137-140. -/
def buildContext (results : List SearchResult) : String :=
  results.foldl
    (fun acc r =>
      acc ++ "Entity: " ++ r.entity ++ "\nTitle: " ++ r.title ++ "\nLink: "
        ++ r.link ++ "\nSnippet: " ++ r.snippet ++ "\n\n")
    ""

/--
`parse_results_with_llm` (src/api_call.py lines 118-163).  Empty input
short-circuits.  Otherwise the model is consulted; the `if` condition is
`response and isinstance(response, str) and (matches or "@" in response)`.
In the success branch `email = matches[0]` raises `IndexError` when
`matches` is empty (possible, since `"@" in response` alone satisfies the
condition); the surrounding `except Exception` converts that to the fixed
parse-error message.  The trailing `result['link']`/`result['snippet']`
reuse the loop variable, i.e. the **last** element of `results`.
-/
def parse_results_with_llm (gen : String → String → GenResult)
    (results : List SearchResult) : String :=
  match results.getLast? with
  | none => noResultsMsg
  | some lastR =>
    let context := buildContext results
    let response := call_llm_with_huggingface gen basePrompt context
    let found := findEmails response
    if !(response == "") && (!found.isEmpty || pyIn "@" response) then
      match found with
      | [] => parseErrorMsg
      | email :: _ => response ++ email ++ lastR.link ++ lastR.snippet
    else
      response ++ lastR.link ++ lastR.snippet ++ caveatMsg

/-- Total backoff slept by `r` consecutive failed attempts starting from
backoff `b` (doubling each time). -/
def sumBackoff (b : Nat) : Nat → Nat
  | 0 => 0
  | Nat.succ r => b + sumBackoff (b * 2) r

/--
A raw item of the list returned by `search_query` as the orchestrator sees
it (src/app.py lines 128-136): a dict from which `title`/`link`/`snippet`
are read with `.get(..., "N/A")`.
-/
structure RawResult where
  title : Option String
  link : Option String
  snippet : Option String
deriving Repr, DecidableEq

/-- An element of a returned list, which may fail `isinstance(result, dict)`. -/
inductive PyItem
  | dict (d : RawResult)
  | nonDict
deriving Repr, DecidableEq

/-- A returned Python value, which may fail `isinstance(search_results, list)`. -/
inductive PyValue
  | list (items : List PyItem)
  | nonList
deriving Repr, DecidableEq

/-- Outcome of the orchestrator's call to `search_query` for one entity. -/
inductive CallResult
  | returns (v : PyValue)
  | raises
deriving Repr, DecidableEq

/-- `all(isinstance(result, dict) for result in search_results)`. -/
def allDicts (items : List PyItem) : Bool :=
  items.all fun it =>
    match it with
    | .dict _ => true
    | .nonDict => false

/-- Normalisation of one dict into the canonical shape (src/app.py 129-134). -/
def structureItem (entity : String) (it : PyItem) : SearchResult :=
  match it with
  | .dict d =>
    ⟨entity, d.title.getD "N/A", d.link.getD "N/A", d.snippet.getD "N/A"⟩
  | .nonDict => ⟨entity, "N/A", "N/A", "N/A"⟩

/-- Does the orchestrator accept the search call's result for parsing?
(`isinstance(search_results, list) and all(isinstance(result, dict) ...)`,
with a raised exception going to the `except` handler instead). -/
def callAccepted (searchO : String → CallResult) (e : String) : Bool :=
  match searchO e with
  | .returns (.list items) => allDicts items
  | _ => false

/-- The parsed output stored for an accepted entity. -/
def entityOutput (searchO : String → CallResult)
    (gen : String → String → GenResult) (e : String) : String :=
  match searchO e with
  | .returns (.list items) =>
    parse_results_with_llm gen (items.map (structureItem e))
  | _ => noResultsMsg

/-- The input table: its column names and, per column, its values in order. -/
structure Table where
  cols : List String
  colValues : String → List String

/-- `pandas.Series.unique`: distinct values, first occurrence order. -/
def uniqueKeepFirst : List String → List String
  | [] => []
  | x :: xs => x :: (uniqueKeepFirst xs).filter fun y => y != x

/--
The per-entity loop of `automated_web_search_and_parse`
(src/app.py lines 117-147).  Returns the stored mapping (insertion order),
the entities reported as failing (non-list / non-dict results, or a raised
exception), and the queries built and dispatched to `search_query`.
-/
def orchLoop (tmpl : String) (searchO : String → CallResult)
    (gen : String → String → GenResult) :
    List String → List (String × String) × List String × List String
  | [] => ([], [], [])
  | e :: es =>
    let q := pyReplace tmpl "\x7bentity\x7d" e
    let rest := orchLoop tmpl searchO gen es
    match searchO e with
    | .returns (.list items) =>
      if allDicts items then
        ((e, parse_results_with_llm gen (items.map (structureItem e))) :: rest.1,
          rest.2.1, q :: rest.2.2)
      else (rest.1, e :: rest.2.1, q :: rest.2.2)
    | .returns .nonList => (rest.1, e :: rest.2.1, q :: rest.2.2)
    | .raises => (rest.1, e :: rest.2.1, q :: rest.2.2)

/-- The default template used when `query_template` is absent from session
state (src/app.py line 112). -/
def defaultTemplate : String := "Get me the email address of \x7bentity\x7d"

/-- Termination status of `automated_web_search_and_parse`. -/
inductive OrchStatus
  | configError
  | queriesMissing
  | completed
deriving Repr, DecidableEq

/-- A complete run of the orchestrator. -/
structure OrchRun where
  status : OrchStatus
  storage : List (String × String)
  failures : List String
  searchCalls : List String
deriving Repr, DecidableEq

/--
`automated_web_search_and_parse(filtered_data)` (src/app.py lines 94-151).
`selected_column` is `st.session_state.get("selected_column")`;
`generated_queries` and `query_template` come from session state (the
template defaulting when absent).  An invalid column or missing queries
return before any search work.
-/
def automated_web_search_and_parse (selected_column : Option String)
    (table : Table) (generated_queries : List String)
    (query_template : Option String) (searchO : String → CallResult)
    (gen : String → String → GenResult) : OrchRun :=
  match selected_column with
  | none => ⟨.configError, [], [], []⟩
  | some c =>
    if table.cols.contains c then
      if generated_queries.isEmpty then ⟨.queriesMissing, [], [], []⟩
      else
        let tmpl := query_template.getD defaultTemplate
        let entities := uniqueKeepFirst (table.colValues c)
        let r := orchLoop tmpl searchO gen entities
        ⟨.completed, r.1, r.2.1, r.2.2⟩
    else ⟨.configError, [], [], []⟩

/-! ## Substring lemmas -/

theorem listInfixOf_nil_needle : ∀ l : List Char, listInfixOf [] l = true
  | [] => rfl
  | _ :: t => by
    simp only [listInfixOf, List.isPrefixOf, Bool.true_or]

theorem listInfixOf_append_right {n h : List Char} (h' : List Char)
    (hp : listInfixOf n h = true) : listInfixOf n (h ++ h') = true := by
  induction h with
  | nil =>
    simp only [listInfixOf, List.isEmpty_iff] at hp
    subst hp
    simpa using listInfixOf_nil_needle h'
  | cons c t ih =>
    simp only [listInfixOf, Bool.or_eq_true] at hp
    rcases hp with hp | hp
    · rw [ List.isPrefixOf_iff_prefix] at hp
      have : n.isPrefixOf ((c :: t) ++ h') = true := by
        rw [ List.isPrefixOf_iff_prefix]
        exact hp.trans (List.prefix_append _ _)
      simp only [List.cons_append] at this ⊢
      simp only [listInfixOf, List.append_eq, this, Bool.true_or]
    · simp only [List.cons_append, listInfixOf, List.append_eq, ih hp, Bool.or_true]

theorem listInfixOf_append_left {n : List Char} (h : List Char) {h' : List Char}
    (hp : listInfixOf n h' = true) : listInfixOf n (h ++ h') = true := by
  induction h with
  | nil => simpa using hp
  | cons c t ih => simp only [List.cons_append, listInfixOf, List.append_eq, ih, Bool.or_true]

theorem listInfixOf_self : ∀ n : List Char, listInfixOf n n = true
  | [] => rfl
  | c :: t => by
    have : (c :: t).isPrefixOf (c :: t) = true := by
      rw [ List.isPrefixOf_iff_prefix]
    simp only [listInfixOf, this, Bool.true_or]

theorem pyIn_append_right {s a : String} (b : String) (h : pyIn s a = true) :
    pyIn s (a ++ b) = true := by
  unfold pyIn at h ⊢
  have hd : (a ++ b).toList = a.toList ++ b.toList := rfl
  rw [hd]
  exact listInfixOf_append_right _ h

theorem pyIn_append_left (a : String) {s b : String} (h : pyIn s b = true) :
    pyIn s (a ++ b) = true := by
  unfold pyIn at h ⊢
  have hd : (a ++ b).toList = a.toList ++ b.toList := rfl
  rw [hd]
  exact listInfixOf_append_left _ h

theorem pyIn_self (s : String) : pyIn s s = true :=
  listInfixOf_self s.toList

/-! ## Lemmas about the result-block loop -/

theorem parseBlock_snippet {e : String} {b : Block} {r : SearchResult}
    (h : parseBlock e b = .ok r) :
    r.snippet = b.snippet.getD "No snippet available" := by
  unfold parseBlock at h
  rcases hb : b.anchor with _ | href
  · rw [hb] at h
    cases h
    rfl
  · rcases href with _ | href
    · rw [hb] at h
      cases h
    · rw [hb] at h
      cases h
      rfl

theorem collectResults_mem_filter {e : String} :
    ∀ (bs : List Block) (i : Nat) (rs : List SearchResult),
      collectResults e bs i = .ok rs →
      ∀ r ∈ rs, pyIn "email" (pyLower r.snippet) = true := by
  intro bs
  induction bs with
  | nil =>
    intro i rs h r hr
    cases h
    cases hr
  | cons b bs ih =>
    intro i rs h r hr
    unfold collectResults at h
    by_cases hi : 5 ≤ i
    · rw [if_pos hi] at h
      cases h
      cases hr
    · rw [if_neg hi] at h
      rcases hpb : parseBlock e b with u | r₀
      · rw [hpb] at h
        cases h
      · rw [hpb] at h
        rcases hrec : collectResults e bs (i + 1) with u | rest
        · rw [hrec] at h
          cases h
        · rw [hrec] at h
          dsimp only at h
          by_cases hf : pyIn "email" (pyLower r₀.snippet) = true
          · rw [if_pos hf] at h
            injection h with hinj
            rw [← hinj] at hr
            rcases List.mem_cons.mp hr with hr1 | hr1
            · exact hr1 ▸ hf
            · exact ih (i + 1) rest hrec r hr1
          · rw [if_neg hf] at h
            injection h with hinj
            rw [← hinj] at hr
            exact ih (i + 1) rest hrec r hr

theorem collectResults_take_five {e : String} :
    ∀ (bs : List Block) (i : Nat),
      collectResults e bs i = collectResults e (bs.take (5 - i)) i := by
  intro bs
  induction bs with
  | nil => intro i; simp
  | cons b bs ih =>
    intro i
    by_cases hi : 5 ≤ i
    · have h0 : 5 - i = 0 := by omega
      rw [h0]
      simp only [List.take_zero]
      unfold collectResults
      rw [if_pos hi]
    · have h1 : 5 - i = (5 - (i + 1)) + 1 := by omega
      rw [h1]
      simp only [List.take_succ_cons]
      unfold collectResults
      rw [if_neg hi, if_neg hi, ← ih (i + 1)]

theorem collectResults_length {e : String} :
    ∀ (bs : List Block) (i : Nat) (rs : List SearchResult),
      collectResults e bs i = .ok rs → rs.length ≤ 5 - i := by
  intro bs
  induction bs with
  | nil =>
    intro i rs h
    cases h
    simp
  | cons b bs ih =>
    intro i rs h
    unfold collectResults at h
    by_cases hi : 5 ≤ i
    · rw [if_pos hi] at h
      cases h
      simp
    · rw [if_neg hi] at h
      rcases hpb : parseBlock e b with u | r₀
      · rw [hpb] at h
        cases h
      · rw [hpb] at h
        rcases hrec : collectResults e bs (i + 1) with u | rest
        · rw [hrec] at h
          cases h
        · rw [hrec] at h
          dsimp only at h
          have hlen := ih (i + 1) rest hrec
          by_cases hf : pyIn "email" (pyLower r₀.snippet) = true
          · rw [if_pos hf] at h
            cases h
            simp only [List.length_cons]
            omega
          · rw [if_neg hf] at h
            cases h
            omega

theorem collectResults_no_match {e : String} :
    ∀ (bs : List Block) (i : Nat) (rs : List SearchResult),
      (∀ b ∈ bs, pyIn "email" (pyLower (b.snippet.getD "No snippet available")) = false) →
      collectResults e bs i = .ok rs → rs = [] := by
  intro bs
  induction bs with
  | nil =>
    intro i rs _ h
    cases h
    rfl
  | cons b bs ih =>
    intro i rs hno h
    unfold collectResults at h
    by_cases hi : 5 ≤ i
    · rw [if_pos hi] at h
      cases h
      rfl
    · rw [if_neg hi] at h
      rcases hpb : parseBlock e b with u | r₀
      · rw [hpb] at h
        cases h
      · rw [hpb] at h
        rcases hrec : collectResults e bs (i + 1) with u | rest
        · rw [hrec] at h
          cases h
        · rw [hrec] at h
          dsimp only at h
          have hsnip : pyIn "email" (pyLower r₀.snippet) = false := by
            rw [parseBlock_snippet hpb]
            exact hno b (List.mem_cons_self b bs)
          rw [hsnip] at h
          simp only [Bool.false_eq_true, if_false] at h
          injection h with hinj
          subst hinj
          exact ih (i + 1) rest (fun b' hb' => hno b' (List.mem_cons_of_mem b hb')) hrec

/-! ## Lemmas about the retry loop -/

/-- Is this attempt a `requests.exceptions.RequestException`? -/
def isReqErr : Attempt → Bool
  | .requestError _ => true
  | .response _ => false

/-- Two attempt outcomes that the `except requests.exceptions.RequestException`
handler cannot tell apart: equal responses, or request errors of any kinds. -/
def attemptEquiv : Attempt → Attempt → Prop
  | .response bs, .response bs' => bs = bs'
  | .requestError _, .requestError _ => True
  | _, _ => False

theorem searchLoop_succ (e : String) (o : Nat → Attempt) (n idx b req sl : Nat)
    (logs : List LogEvent) :
    searchLoop e o (n + 1) idx b req sl logs =
      (match o idx with
       | Attempt.requestError _ =>
         searchLoop e o n (idx + 1) (b * 2) (req + 1) (sl + b)
           (logs ++ [LogEvent.retryWarning])
       | Attempt.response blocks =>
         match collectResults e blocks 0 with
         | Except.ok rs =>
           SearchRun.mk (SearchOutcome.returned rs) (req + 1) sl logs
         | Except.error _ =>
           SearchRun.mk SearchOutcome.raised (req + 1) sl logs) := rfl

theorem sumBackoff_add_self : ∀ (r b : Nat), sumBackoff b r + b = b * 2 ^ r
  | 0, b => by simp [sumBackoff]
  | r + 1, b => by
    have ih := sumBackoff_add_self r (b * 2)
    simp only [sumBackoff, pow_succ]
    have h2 : b * (2 ^ r * 2) = b * 2 * 2 ^ r := by ring
    rw [h2]
    generalize sumBackoff (b * 2) r = S at ih ⊢
    generalize b * 2 * 2 ^ r = T at ih ⊢
    omega

theorem sumBackoff_one (n : Nat) : sumBackoff 1 n = 2 ^ n - 1 := by
  have h := sumBackoff_add_self n 1
  rw [one_mul] at h
  have hp : 1 ≤ 2 ^ n := Nat.one_le_two_pow
  generalize 2 ^ n = P at h hp ⊢
  omega

theorem searchLoop_all_failures (e : String) (o : Nat → Attempt) :
    ∀ (r idx b req sl : Nat) (logs : List LogEvent),
      (∀ j, j < r → isReqErr (o (idx + j)) = true) →
      searchLoop e o r idx b req sl logs =
        ⟨.returned [], req + r, sl + sumBackoff b r,
          logs ++ List.replicate r .retryWarning ++ [.exhaustedError]⟩ := by
  intro r
  induction r with
  | zero =>
    intro idx b req sl logs _
    simp [searchLoop, sumBackoff]
  | succ n ih =>
    intro idx b req sl logs hfail
    have h0 : isReqErr (o idx) = true := by
      have := hfail 0 (Nat.succ_pos n)
      simpa using this
    rw [searchLoop_succ]
    rcases ho : o idx with blocks | k
    · rw [ho] at h0
      simp [isReqErr] at h0
    · dsimp only
      have hshift : ∀ j, j < n → isReqErr (o (idx + 1 + j)) = true := by
        intro j hj
        have heq : idx + 1 + j = idx + (j + 1) := by omega
        rw [heq]
        exact hfail (j + 1) (by omega)
      rw [ih (idx + 1) (b * 2) (req + 1) (sl + b) (logs ++ [LogEvent.retryWarning]) hshift]
      simp only [SearchRun.mk.injEq, sumBackoff, List.replicate_succ, List.append_assoc,
        List.cons_append, List.nil_append]
      refine ⟨trivial, by omega, by omega, trivial⟩

theorem searchLoop_success_after (e : String) (o : Nat → Attempt) :
    ∀ (N r idx b req sl : Nat) (logs : List LogEvent) (blocks : List Block)
      (rs : List SearchResult),
      (∀ j, j < N → isReqErr (o (idx + j)) = true) →
      o (idx + N) = .response blocks →
      collectResults e blocks 0 = .ok rs →
      N < r →
      searchLoop e o r idx b req sl logs =
        ⟨.returned rs, req + N + 1, sl + sumBackoff b N,
          logs ++ List.replicate N .retryWarning⟩ := by
  intro N
  induction N with
  | zero =>
    intro r idx b req sl logs blocks rs _ hresp hcoll hr
    rcases r with _ | r
    · omega
    · rw [searchLoop_succ]
      rw [show idx + 0 = idx from rfl] at hresp
      rw [hresp]
      dsimp only
      rw [hcoll]
      simp [sumBackoff]
  | succ n ih =>
    intro r idx b req sl logs blocks rs hfail hresp hcoll hr
    have h0 : isReqErr (o idx) = true := by
      have := hfail 0 (Nat.succ_pos n)
      simpa using this
    rcases r with _ | r
    · omega
    rcases ho : o idx with blocks' | k
    · rw [ho] at h0
      simp [isReqErr] at h0
    · rw [searchLoop_succ, ho]
      dsimp only
      have hshift : ∀ j, j < n → isReqErr (o (idx + 1 + j)) = true := by
        intro j hj
        have heq : idx + 1 + j = idx + (j + 1) := by omega
        rw [heq]
        exact hfail (j + 1) (by omega)
      have hresp' : o (idx + 1 + n) = .response blocks := by
        have heq : idx + 1 + n = idx + (n + 1) := by omega
        rw [heq]
        exact hresp
      rw [ih r (idx + 1) (b * 2) (req + 1) (sl + b) (logs ++ [LogEvent.retryWarning]) blocks rs
        hshift hresp' hcoll (by omega)]
      simp only [SearchRun.mk.injEq, sumBackoff, List.replicate_succ, List.append_assoc,
        List.cons_append, List.nil_append]
      refine ⟨trivial, by omega, by omega, trivial⟩

theorem searchLoop_equiv (e : String) (o o' : Nat → Attempt)
    (h : ∀ i, attemptEquiv (o i) (o' i)) :
    ∀ (r idx b req sl : Nat) (logs : List LogEvent),
      searchLoop e o r idx b req sl logs = searchLoop e o' r idx b req sl logs := by
  intro r
  induction r with
  | zero => intro idx b req sl logs; rfl
  | succ n ih =>
    intro idx b req sl logs
    have he := h idx
    rw [searchLoop_succ, searchLoop_succ]
    rcases ho : o idx with blocks | k <;> rcases ho' : o' idx with blocks' | k'
    · rw [ho, ho'] at he
      unfold attemptEquiv at he
      subst he
      rfl
    · rw [ho, ho'] at he
      exact absurd he (by simp [attemptEquiv])
    · rw [ho, ho'] at he
      exact absurd he (by simp [attemptEquiv])
    · exact ih (idx + 1) (b * 2) (req + 1) (sl + b) (logs ++ [.retryWarning])

theorem searchLoop_returned_cases (e : String) (o : Nat → Attempt)
    (P : List SearchResult → Prop) (hnil : P [])
    (hok : ∀ blocks rs, collectResults e blocks 0 = .ok rs → P rs) :
    ∀ (r idx b req sl : Nat) (logs : List LogEvent) (rs : List SearchResult),
      (searchLoop e o r idx b req sl logs).outcome = .returned rs → P rs := by
  intro r
  induction r with
  | zero =>
    intro idx b req sl logs rs h
    simp only [searchLoop] at h
    injection h with hinj
    rw [← hinj]
    exact hnil
  | succ n ih =>
    intro idx b req sl logs rs h
    rw [searchLoop_succ] at h
    rcases ho : o idx with blocks | k
    · rw [ho] at h
      dsimp only at h
      rcases hc : collectResults e blocks 0 with u | rs'
      · rw [hc] at h
        cases h
      · rw [hc] at h
        dsimp only at h
        injection h with hinj
        rw [← hinj]
        exact hok blocks rs' hc
    · rw [ho] at h
      exact ih (idx + 1) (b * 2) (req + 1) (sl + b) (logs ++ [.retryWarning]) rs h

/-! ## Lemmas about the orchestration loop -/

theorem orchLoop_spec (tmpl : String) (searchO : String → CallResult)
    (gen : String → String → GenResult) :
    ∀ es : List String,
      orchLoop tmpl searchO gen es =
        ((es.filter (callAccepted searchO)).map
            (fun e => (e, entityOutput searchO gen e)),
          es.filter (fun e => !(callAccepted searchO e)),
          es.map (fun e => pyReplace tmpl "\x7bentity\x7d" e)) := by
  intro es
  induction es with
  | nil => rfl
  | cons e es ih =>
    show (match searchO e with
      | .returns (.list items) =>
        if allDicts items then
          ((e, parse_results_with_llm gen (items.map (structureItem e))) ::
              (orchLoop tmpl searchO gen es).1,
            (orchLoop tmpl searchO gen es).2.1,
            pyReplace tmpl "\x7bentity\x7d" e :: (orchLoop tmpl searchO gen es).2.2)
        else ((orchLoop tmpl searchO gen es).1,
          e :: (orchLoop tmpl searchO gen es).2.1,
          pyReplace tmpl "\x7bentity\x7d" e :: (orchLoop tmpl searchO gen es).2.2)
      | .returns .nonList => ((orchLoop tmpl searchO gen es).1,
          e :: (orchLoop tmpl searchO gen es).2.1,
          pyReplace tmpl "\x7bentity\x7d" e :: (orchLoop tmpl searchO gen es).2.2)
      | .raises => ((orchLoop tmpl searchO gen es).1,
          e :: (orchLoop tmpl searchO gen es).2.1,
          pyReplace tmpl "\x7bentity\x7d" e :: (orchLoop tmpl searchO gen es).2.2)) = _
    rw [ih]
    rcases hso : searchO e with v | _
    · rcases v with items | _
      · rcases hd : allDicts items with _ | _
        · simp [List.filter_cons, List.map_cons, callAccepted, entityOutput, hso, hd]
        · simp [List.filter_cons, List.map_cons, callAccepted, entityOutput, hso, hd]
      · simp [List.filter_cons, List.map_cons, callAccepted, entityOutput, hso]
    · simp [List.filter_cons, List.map_cons, callAccepted, entityOutput, hso]

/-! ## Claim theorems: SearchClient -/

/--
C2 (amended): every `requests.exceptions.RequestException` raised in the
request step — network errors and non-2xx statuses, of any kind — is treated
identically for backoff purposes: the whole run of `search_query` is
unchanged when one request-error kind is swapped for another, and each such
error triggers a backoff sleep and a retry rather than propagating.
Exceptions raised while parsing the HTML, by contrast, are not caught (see
the counterexample theorem).
-/
theorem c2_request_exceptions_uniform (e : String) (o o' : Nat → Attempt)
    (h : ∀ i, attemptEquiv (o i) (o' i)) (m : Nat) :
    search_query e o m = search_query e o' m ∧
    (∀ (k : ReqErrKind) (r idx b req sl : Nat) (logs : List LogEvent),
      o idx = Attempt.requestError k →
      searchLoop e o (r + 1) idx b req sl logs =
        searchLoop e o r (idx + 1) (b * 2) (req + 1) (sl + b)
          (logs ++ [LogEvent.retryWarning])) := by
  constructor
  · exact searchLoop_equiv e o o' h m 0 1 0 0 []
  · intro k r idx b req sl logs ho
    rw [searchLoop_succ, ho]

/--
C2 counterexample: an exception raised in the HTML-parse step (here a
`KeyError` from `result.select_one("a")["href"]` on an anchor without an
`href` attribute) is NOT treated like the request errors: it propagates out
of `search_query` on the very first attempt, with no backoff sleep and no
retry, refuting the claim that every exception of the request/parse step
triggers a backoff sleep and a retry rather than propagating.
-/
theorem c2_parse_exception_propagates :
    search_query "Acme" (fun _ => Attempt.response [⟨none, some none, none⟩]) 5 =
      ⟨SearchOutcome.raised, 1, 0, []⟩ := rfl

theorem c2_request_exceptions_uniform_witness :
    (∀ i : Nat, attemptEquiv
      ((fun _ => Attempt.requestError ReqErrKind.rateLimited) i)
      ((fun _ => Attempt.requestError ReqErrKind.connectionError) i)) ∧
    search_query "Acme" (fun _ => Attempt.requestError ReqErrKind.rateLimited) 2 =
      search_query "Acme" (fun _ => Attempt.requestError ReqErrKind.connectionError) 2 :=
  ⟨fun _ => trivial,
    (c2_request_exceptions_uniform "Acme"
      (fun _ => Attempt.requestError ReqErrKind.rateLimited)
      (fun _ => Attempt.requestError ReqErrKind.connectionError)
      (fun _ => trivial) 2).1⟩

/--
C3: if every attempt raises a request error, `search_query` makes exactly
`max_retries` HTTP attempts (the default `max_retries` being 5), sleeping
between them, then logs an error and returns the empty list without
raising.  Such an empty list is accepted by the orchestrator, which stores
the fixed no-results message for the entity — the failure is per-entity and
not fatal to the batch.
-/
theorem c3_retry_exhaustion_returns_empty (e : String) (o : Nat → Attempt)
    (m : Nat) (hfail : ∀ i, i < m → isReqErr (o i) = true) :
    search_query e o m =
      ⟨.returned [], m, 2 ^ m - 1,
        List.replicate m .retryWarning ++ [.exhaustedError]⟩ ∧
    defaultMaxRetries = 5 ∧
    (∀ (tmpl e' : String) (gen : String → String → GenResult),
      orchLoop tmpl (fun _ => CallResult.returns (.list [])) gen [e'] =
        ([(e', noResultsMsg)], [], [pyReplace tmpl "\x7bentity\x7d" e'])) := by
  refine ⟨?_, rfl, fun tmpl e' gen => rfl⟩
  unfold search_query
  rw [searchLoop_all_failures e o m 0 1 0 0 []
    (by intro j hj; simpa using hfail j hj)]
  rw [sumBackoff_one]
  simp

theorem c3_retry_exhaustion_returns_empty_witness :
    (∀ i, i < 3 →
      isReqErr ((fun _ => Attempt.requestError ReqErrKind.rateLimited) i) = true) ∧
    search_query "Acme" (fun _ => Attempt.requestError ReqErrKind.rateLimited) 3 =
      ⟨.returned [], 3, 7,
        [.retryWarning, .retryWarning, .retryWarning, .exhaustedError]⟩ :=
  ⟨fun _ _ => rfl,
    (c3_retry_exhaustion_returns_empty "Acme"
      (fun _ => Attempt.requestError ReqErrKind.rateLimited) 3 (fun _ _ => rfl)).1⟩

/--
C4: if the first `N` attempts raise request errors and attempt `N + 1`
succeeds (`N < max_retries`), `search_query` succeeds with the parsed
results and the total backoff slept is `1 + 2 + ... + 2 ^ (N - 1) =
2 ^ N - 1`: the backoff starts at one time unit and doubles after each
failed attempt.
-/
theorem c4_backoff_doubles_until_success (e : String) (o : Nat → Attempt)
    (m N : Nat) (blocks : List Block) (rs : List SearchResult)
    (hN : N < m)
    (hfail : ∀ i, i < N → isReqErr (o i) = true)
    (hsucc : o N = .response blocks)
    (hcoll : collectResults e blocks 0 = .ok rs) :
    search_query e o m =
      ⟨.returned rs, N + 1, 2 ^ N - 1, List.replicate N .retryWarning⟩ := by
  unfold search_query
  rw [searchLoop_success_after e o N m 0 1 0 0 [] blocks rs
    (by intro j hj; simpa using hfail j hj) (by simpa using hsucc) hcoll hN]
  rw [sumBackoff_one]
  simp

/-- Oracle for the C4 witness: two request errors, then a good response. -/
def c4Oracle : Nat → Attempt
  | 0 => Attempt.requestError ReqErrKind.rateLimited
  | 1 => Attempt.requestError ReqErrKind.httpStatusError
  | _ => Attempt.response [⟨some "T", some (some "http://a"), some "Email: hi"⟩]

theorem c4_backoff_doubles_until_success_witness :
    (2 < 5 ∧ (∀ i, i < 2 → isReqErr (c4Oracle i) = true) ∧
      c4Oracle 2 = .response [⟨some "T", some (some "http://a"), some "Email: hi"⟩]) ∧
    search_query "Acme" c4Oracle 5 =
      ⟨.returned [⟨"Acme", "T", "http://a", "Email: hi"⟩], 3, 3,
        [.retryWarning, .retryWarning]⟩ :=
  ⟨⟨by omega,
    by
      intro i hi
      interval_cases i <;> rfl,
    rfl⟩,
   c4_backoff_doubles_until_success "Acme" c4Oracle 5 2
     [⟨some "T", some (some "http://a"), some "Email: hi"⟩]
     [⟨"Acme", "T", "http://a", "Email: hi"⟩]
     (by omega)
     (by intro i hi; interval_cases i <;> rfl)
     rfl rfl⟩

/--
C5: the email filter is a hard retain/drop condition: every `SearchResult`
ever returned by `search_query` has a snippet containing the substring
"email" case-insensitively, and a successfully parsed response none of
whose blocks has such a snippet yields the empty result list.
-/
theorem c5_snippet_email_filter (e : String) (o : Nat → Attempt) (m : Nat) :
    (∀ rs, (search_query e o m).outcome = .returned rs →
      ∀ r ∈ rs, pyIn "email" (pyLower r.snippet) = true) ∧
    (∀ (blocks : List Block) (rs : List SearchResult),
      (∀ b ∈ blocks,
        pyIn "email" (pyLower (b.snippet.getD "No snippet available")) = false) →
      collectResults e blocks 0 = .ok rs → rs = []) := by
  constructor
  · intro rs h r hr
    exact searchLoop_returned_cases e o
      (fun rs => ∀ r ∈ rs, pyIn "email" (pyLower r.snippet) = true)
      (by intro r hr; cases hr)
      (fun blocks rs' hc => collectResults_mem_filter blocks 0 rs' hc)
      m 0 1 0 0 [] rs h r hr
  · intro blocks rs hno hc
    exact collectResults_no_match blocks 0 rs hno hc

/-- Block and canonical result used by the C5 witness. -/
def c5Block : Block := ⟨some "T", some (some "http://a"), some "Email: hi"⟩

def c5Result : SearchResult := ⟨"Acme", "T", "http://a", "Email: hi"⟩

theorem c5_snippet_email_filter_witness :
    ((search_query "Acme" (fun _ => Attempt.response [c5Block]) 5).outcome =
      .returned [c5Result]) ∧
    pyIn "email" (pyLower c5Result.snippet) = true :=
  ⟨rfl,
    (c5_snippet_email_filter "Acme" (fun _ => Attempt.response [c5Block]) 5).1
      [c5Result] rfl c5Result (List.mem_cons_self c5Result [])⟩

/--
C9: the result-block loop inspects only the first five `.g` blocks: its
outcome on any block list equals its outcome on the first five blocks alone
(so a block at index 5 or later is never parsed, filtered or returned, even
when fewer than five results were emitted), and a successful parse returns
at most five results.
-/
theorem c9_only_first_five_blocks (e : String) (blocks : List Block) :
    collectResults e blocks 0 = collectResults e (blocks.take 5) 0 ∧
    (∀ rs, collectResults e blocks 0 = .ok rs → rs.length ≤ 5) := by
  constructor
  · simpa using collectResults_take_five blocks 0
  · intro rs h
    simpa using collectResults_length blocks 0 rs h

/-- Seven identical matching blocks, for the C9 witness. -/
def c9Blocks : List Block :=
  List.replicate 7 ⟨some "T", some (some "http://a"), some "an Email here"⟩

theorem c9_only_first_five_blocks_witness :
    (collectResults "Acme" c9Blocks 0 =
      .ok (List.replicate 5 ⟨"Acme", "T", "http://a", "an Email here"⟩)) ∧
    (List.replicate 5
      (SearchResult.mk "Acme" "T" "http://a" "an Email here")).length ≤ 5 :=
  ⟨rfl,
    (c9_only_first_five_blocks "Acme" c9Blocks).2
      (List.replicate 5 ⟨"Acme", "T", "http://a", "an Email here"⟩) rfl⟩

/-! ## Claim theorems: AnswerExtractor -/

theorem parse_eval (gen : String → String → GenResult)
    (results : List SearchResult) (lastR : SearchResult)
    (hlast : results.getLast? = some lastR) :
    parse_results_with_llm gen results =
      (let response := call_llm_with_huggingface gen basePrompt (buildContext results)
       let found := findEmails response
       if !(response == "") && (!found.isEmpty || pyIn "@" response) then
         match found with
         | [] => parseErrorMsg
         | email :: _ => response ++ email ++ lastR.link ++ lastR.snippet
       else response ++ lastR.link ++ lastR.snippet ++ caveatMsg) := by
  unfold parse_results_with_llm
  rw [hlast]

/--
C1 counterexample: for the non-empty canonical result list
`[⟨"Acme", "T", "L", "S"⟩]` and the model answer `"@"` — in which the
literal character `@` appears but the email regex finds no match —
`parse_results_with_llm` does not treat extraction as successful: the
success branch evaluates `matches[0]` on an empty match list, the
`IndexError` is caught by the outer handler, and the fixed parse-error
message is returned (which does not even contain the model's answer).
-/
theorem c1_at_without_match_errors :
    parse_results_with_llm (fun _ _ => GenResult.answers "@")
        [⟨"Acme", "T", "L", "S"⟩] = parseErrorMsg ∧
    pyIn "@" parseErrorMsg = false :=
  ⟨rfl, rfl⟩

/--
C1 (amended): for every non-empty list of canonical SearchResults and every
model answer in which the email regex finds at least one match, extraction
is treated as successful and returns the model's answer concatenated with
the first regex match and the last-processed result's link and snippet; in
particular the answer is a prefix of the returned string, so any email
address contained in the answer is contained in the returned string.  (When
`@` appears in the answer but the regex finds no match, the code instead
hits an `IndexError` on `matches[0]` and returns the fixed parse-error
message — see the counterexample.)
-/
theorem c1_regex_match_success (gen : String → String → GenResult)
    (results : List SearchResult) (lastR : SearchResult) (a em : String)
    (ems : List String)
    (hlast : results.getLast? = some lastR)
    (hgen : gen basePrompt (buildContext results) = .answers a)
    (hfind : findEmails a = em :: ems) :
    parse_results_with_llm gen results = a ++ em ++ lastR.link ++ lastR.snippet ∧
    (∀ s, pyIn s a = true → pyIn s (parse_results_with_llm gen results) = true) := by
  have hresp : call_llm_with_huggingface gen basePrompt (buildContext results) = a := by
    unfold call_llm_with_huggingface
    rw [hgen]
  have hne : (a == "") = false := by
    cases h' : a == ""
    · rfl
    · exfalso
      have ha : a = "" := eq_of_beq h'
      rw [ha] at hfind
      simp [show findEmails "" = [] from rfl] at hfind
  have hmain : parse_results_with_llm gen results =
      a ++ em ++ lastR.link ++ lastR.snippet := by
    rw [parse_eval gen results lastR hlast]
    dsimp only
    rw [hresp, hfind, hne]
    simp only [Bool.not_false, List.isEmpty_cons, Bool.true_or, Bool.and_true]
    simp only [if_true]
  refine ⟨hmain, ?_⟩
  intro s hs
  rw [hmain]
  exact pyIn_append_right _ (pyIn_append_right _ (pyIn_append_right _ hs))

theorem c1_regex_match_success_witness :
    (findEmails "reach us at joe@acme.com" = ["joe@acme.com"] ∧
      ([⟨"Acme", "T", "L", "S"⟩] : List SearchResult).getLast? =
        some ⟨"Acme", "T", "L", "S"⟩) ∧
    parse_results_with_llm (fun _ _ => GenResult.answers "reach us at joe@acme.com")
        [⟨"Acme", "T", "L", "S"⟩] =
      "reach us at joe@acme.com" ++ "joe@acme.com" ++ "L" ++ "S" :=
  ⟨⟨rfl, rfl⟩,
    (c1_regex_match_success (fun _ _ => GenResult.answers "reach us at joe@acme.com")
      [⟨"Acme", "T", "L", "S"⟩] ⟨"Acme", "T", "L", "S"⟩
      "reach us at joe@acme.com" "joe@acme.com" [] rfl rfl rfl).1⟩

/--
C8: for every non-empty list of canonical SearchResults, when the model's
answer contains no email-regex match and no `@` character,
`parse_results_with_llm` returns the answer concatenated with the
last-processed result's link and snippet and the fixed caveat string; in
particular the returned string contains the caveat substring.
-/
theorem c8_no_match_appends_caveat (gen : String → String → GenResult)
    (results : List SearchResult) (lastR : SearchResult) (a : String)
    (hlast : results.getLast? = some lastR)
    (hgen : gen basePrompt (buildContext results) = .answers a)
    (hfind : findEmails a = [])
    (hat : pyIn "@" a = false) :
    parse_results_with_llm gen results =
      a ++ lastR.link ++ lastR.snippet ++ caveatMsg ∧
    pyIn caveatMsg (parse_results_with_llm gen results) = true := by
  have hresp : call_llm_with_huggingface gen basePrompt (buildContext results) = a := by
    unfold call_llm_with_huggingface
    rw [hgen]
  have hmain : parse_results_with_llm gen results =
      a ++ lastR.link ++ lastR.snippet ++ caveatMsg := by
    rw [parse_eval gen results lastR hlast]
    dsimp only
    rw [hresp, hfind, hat]
    simp
  refine ⟨hmain, ?_⟩
  rw [hmain]
  exact pyIn_append_left _ (pyIn_self caveatMsg)

theorem c8_no_match_appends_caveat_witness :
    (findEmails "no contact information found" = [] ∧
      pyIn "@" "no contact information found" = false) ∧
    parse_results_with_llm (fun _ _ => GenResult.answers "no contact information found")
        [⟨"Acme", "T", "L", "S"⟩] =
      "no contact information found" ++ "L" ++ "S" ++ caveatMsg :=
  ⟨⟨rfl, rfl⟩,
    (c8_no_match_appends_caveat (fun _ _ => GenResult.answers "no contact information found")
      [⟨"Acme", "T", "L", "S"⟩] ⟨"Acme", "T", "L", "S"⟩
      "no contact information found" rfl rfl rfl rfl).1⟩

/--
C10: when the QA model invocation raises, `call_llm_with_huggingface`
catches the exception and returns the fixed failure string;
`parse_results_with_llm` then processes that string as the model's answer,
so for every non-empty result list the output is the failure string
concatenated with the last result's link, snippet and the caveat — never
the parse-error message — and no exception reaches the caller (the
embedding is a total function).
-/
theorem c10_model_exception_handled (gen : String → String → GenResult)
    (results : List SearchResult) (lastR : SearchResult)
    (hlast : results.getLast? = some lastR)
    (hgen : gen basePrompt (buildContext results) = .raises) :
    parse_results_with_llm gen results =
      hfFailureMsg ++ lastR.link ++ lastR.snippet ++ caveatMsg ∧
    parse_results_with_llm gen results ≠ parseErrorMsg := by
  have hresp : call_llm_with_huggingface gen basePrompt (buildContext results) =
      hfFailureMsg := by
    unfold call_llm_with_huggingface
    rw [hgen]
  have hmain : parse_results_with_llm gen results =
      hfFailureMsg ++ lastR.link ++ lastR.snippet ++ caveatMsg := by
    rw [parse_eval gen results lastR hlast]
    dsimp only
    rw [hresp]
    rw [show findEmails hfFailureMsg = [] from rfl,
      show pyIn "@" hfFailureMsg = false from rfl]
    simp
  refine ⟨hmain, ?_⟩
  rw [hmain]
  intro hEq
  have hlen := congrArg String.length hEq
  rw [String.length_append, String.length_append, String.length_append] at hlen
  rw [show hfFailureMsg.length = 53 from rfl,
    show caveatMsg.length = 86 from rfl,
    show parseErrorMsg.length = 32 from rfl] at hlen
  omega

theorem c10_model_exception_handled_witness :
    (([⟨"Acme", "T", "L", "S"⟩] : List SearchResult).getLast? =
      some ⟨"Acme", "T", "L", "S"⟩) ∧
    parse_results_with_llm (fun _ _ => GenResult.raises)
        [⟨"Acme", "T", "L", "S"⟩] =
      hfFailureMsg ++ "L" ++ "S" ++ caveatMsg :=
  ⟨rfl,
    (c10_model_exception_handled (fun _ _ => GenResult.raises)
      [⟨"Acme", "T", "L", "S"⟩] ⟨"Acme", "T", "L", "S"⟩ rfl rfl).1⟩

/-! ## Claim theorems: PipelineOrchestrator -/

/--
C6: for every table and entity sequence, the orchestration loop never
aborts: its run is fully characterised entity by entity.  An entity whose
search call raises, returns a non-list, or returns a list containing a
non-dict item is reported in the failure list and omitted from the result
mapping, while every other entity is processed and stored with its parsed
output; a query is built and a search dispatched for every entity
regardless of other entities' failures.
-/
theorem c6_failure_isolation (table : Table) (c : String)
    (generated_queries : List String) (qt : Option String)
    (searchO : String → CallResult) (gen : String → String → GenResult)
    (hcol : table.cols.contains c = true)
    (hq : generated_queries.isEmpty = false) :
    automated_web_search_and_parse (some c) table generated_queries qt searchO gen =
      ⟨.completed,
        ((uniqueKeepFirst (table.colValues c)).filter (callAccepted searchO)).map
          (fun e => (e, entityOutput searchO gen e)),
        (uniqueKeepFirst (table.colValues c)).filter
          (fun e => !(callAccepted searchO e)),
        (uniqueKeepFirst (table.colValues c)).map
          (fun e => pyReplace (qt.getD defaultTemplate) "\x7bentity\x7d" e)⟩ := by
  have hstep : automated_web_search_and_parse (some c) table generated_queries qt
      searchO gen =
      (if table.cols.contains c = true then
        (if generated_queries.isEmpty = true then
          ⟨OrchStatus.queriesMissing, [], [], []⟩
        else
          let tmpl := qt.getD defaultTemplate
          let entities := uniqueKeepFirst (table.colValues c)
          let r := orchLoop tmpl searchO gen entities
          ⟨OrchStatus.completed, r.1, r.2.1, r.2.2⟩)
      else ⟨OrchStatus.configError, [], [], []⟩) := rfl
  rw [hstep, hcol, hq]
  simp only [eq_self_iff_true, if_true, Bool.false_eq_true, if_false]
  rw [orchLoop_spec]

/-- Table for the C6 witness. -/
def c6Table : Table :=
  ⟨["Company"], fun c => if c == "Company" then ["Acme", "Beta", "Acme"] else []⟩

/-- Search oracle for the C6 witness: "Acme" succeeds, "Beta" raises. -/
def c6Search : String → CallResult := fun e =>
  if e == "Acme" then
    CallResult.returns (PyValue.list
      [PyItem.dict ⟨some "T", some "http://a", some "Email: x@a.co"⟩])
  else CallResult.raises

theorem c6_failure_isolation_witness :
    (c6Table.cols.contains "Company" = true ∧ (["q"] : List String).isEmpty = false) ∧
    automated_web_search_and_parse (some "Company") c6Table ["q"]
        (some "find \x7bentity\x7d") c6Search (fun _ _ => GenResult.answers "x@a.co") =
      ⟨.completed, [("Acme", "x@a.cox@a.cohttp://aEmail: x@a.co")], ["Beta"],
        ["find Acme", "find Beta"]⟩ :=
  ⟨⟨rfl, rfl⟩, by
    rw [c6_failure_isolation c6Table "Company" ["q"] (some "find \x7bentity\x7d")
      c6Search (fun _ _ => GenResult.answers "x@a.co") rfl rfl]
    decide⟩

/--
C7: when the selected entity column is missing (`None`) or is not a column
of the filtered table, `automated_web_search_and_parse` reports a
configuration error and returns immediately: the result mapping is empty,
no failure is recorded, and no query is built or dispatched to the search
client (the call trace is empty).
-/
theorem c7_invalid_column_does_no_work (selected_column : Option String)
    (table : Table) (generated_queries : List String) (qt : Option String)
    (searchO : String → CallResult) (gen : String → String → GenResult)
    (h : selected_column = none ∨
      ∃ c, selected_column = some c ∧ table.cols.contains c = false) :
    automated_web_search_and_parse selected_column table generated_queries qt
        searchO gen = ⟨.configError, [], [], []⟩ := by
  rcases h with h | ⟨c, hc, hcol⟩
  · rw [h]
    rfl
  · rw [hc]
    have hstep : automated_web_search_and_parse (some c) table generated_queries qt
        searchO gen =
        (if table.cols.contains c = true then
          (if generated_queries.isEmpty = true then
            ⟨OrchStatus.queriesMissing, [], [], []⟩
          else
            let tmpl := qt.getD defaultTemplate
            let entities := uniqueKeepFirst (table.colValues c)
            let r := orchLoop tmpl searchO gen entities
            ⟨OrchStatus.completed, r.1, r.2.1, r.2.2⟩)
        else ⟨OrchStatus.configError, [], [], []⟩) := rfl
    rw [hstep, hcol]
    simp

theorem c7_invalid_column_does_no_work_witness :
    ((some "Missing" : Option String) = none ∨
      ∃ c, (some "Missing" : Option String) = some c ∧
        c6Table.cols.contains c = false) ∧
    automated_web_search_and_parse (some "Missing") c6Table ["q"]
        (some "find \x7bentity\x7d") c6Search (fun _ _ => GenResult.answers "x") =
      ⟨.configError, [], [], []⟩ :=
  ⟨Or.inr ⟨"Missing", rfl, rfl⟩,
    c7_invalid_column_does_no_work (some "Missing") c6Table ["q"]
      (some "find \x7bentity\x7d") c6Search (fun _ _ => GenResult.answers "x")
      (Or.inr ⟨"Missing", rfl, rfl⟩)⟩
